import Mathlib

set_option maxRecDepth 8000

/-!
Verification of the structural linter `scripts/validate_swift_structure.py`.

The script is embedded shallowly: its text is a `List Char`, file paths are
`String`s, the global `errors` list is the list of diagnostic strings each
phase returns, and the driver is a pure function from an argument list and a
filesystem model to an exit code, an output line list and the list of files
read.  Braces inside string and character literals are written with the
escapes `\x7b` (opening brace) and `\x7d` (closing brace).
-/

namespace SwiftStructure

/-- `PAIR` from the script: maps each closing delimiter to its opener. -/
def pairOf (c : Char) : Option Char :=
  if c = ')' then some '('
  else if c = '\x7d' then some '\x7b'
  else if c = ']' then some '['
  else none

/-- Membership in `OPEN = {'(', '\x7b', '['}`. -/
def isOpenDelim (c : Char) : Bool :=
  c = '(' || c = '\x7b' || c = '['

/--
The balance loop of `check_file`.  `scanBal text stack i` walks `text`
starting at offset `i` with the current `stack` (head = top, i.e. the
Python `stack[-1]`).  It returns the stack at the moment the loop stops
together with `some j` when the loop hit `break` at offset `j` (empty stack
or wrong top on a closer), or `none` when it ran to end-of-text.
-/
def scanBal : List Char → List Char → Nat → List Char × Option Nat
  | [], st, _ => (st, none)
  | c :: cs, st, i =>
    if isOpenDelim c then scanBal cs (c :: st) (i + 1)
    else
      match pairOf c with
      | some p =>
        match st with
        | [] => ([], some i)
        | t :: st2 => if t = p then scanBal cs st2 (i + 1) else (t :: st2, some i)
      | none => scanBal cs st (i + 1)

/--
The balance diagnostics of `check_file` for one file: the mismatch message
appended at the `break`, then the `open=` message when the stack is
non-empty after the loop.  `''.join(stack)` lists the stack bottom-to-top,
which is the reverse of our head-is-top list.
-/
def balanceErrors (path : String) (text : List Char) : List String :=
  (match (scanBal text [] 0).2 with
   | some i => [path ++ ": Unbalanced or mismatched bracket around offset " ++ toString i]
   | none => []) ++
  (if (scanBal text [] 0).1 = [] then []
   else [path ++ ": Unbalanced brackets, open=" ++ String.mk (scanBal text [] 0).1.reverse])

/--
Perfectly balanced, correctly nested text over the pairs `()`, `\x7b\x7d`,
`[]`; characters that are not delimiters are arbitrary.
-/
inductive Balanced : List Char → Prop
  | nil : Balanced []
  | other {c : Char} (ho : isOpenDelim c = false) (hp : pairOf c = none)
      {t : List Char} : Balanced t → Balanced (c :: t)
  | wrap {o c : Char} (ho : isOpenDelim o = true) (hp : pairOf c = some o)
      {m t : List Char} : Balanced m → Balanced t → Balanced (o :: (m ++ c :: t))

/-- ASCII word character: the `\w` class underlying the patterns' `\b`. -/
def isWordChar (c : Char) : Bool :=
  c.isAlphanum || c = '_'

/-- The `\s` whitespace class of the patterns. -/
def isSpaceChar (c : Char) : Bool :=
  c = ' ' || c = '\t' || c = '\n' || c = '\r' || c = '\x0b' || c = '\x0c'

/-- `[A-Za-z_]`, the identifier start class of `TYPE_RE`. -/
def isIdentStart (c : Char) : Bool :=
  c.isAlpha || c = '_'

/-- `[A-Za-z0-9_]`, the identifier continuation class of `TYPE_RE`. -/
def isIdentChar (c : Char) : Bool := isWordChar c

/-- The keyword alternation `(struct|class|enum)` of `TYPE_RE`: on success,
the keyword's length and the remaining text. -/
def matchKw (cs : List Char) : Option (Nat × List Char) :=
  if cs.take 6 = "struct".data then some (6, cs.drop 6)
  else if cs.take 5 = "class".data then some (5, cs.drop 5)
  else if cs.take 4 = "enum".data then some (4, cs.drop 4)
  else none

/-- One attempted `TYPE_RE` match at the current position.  `prevWord` says
whether the character just before this position is a word character (the
leading `\b` fails in that case).  The separator `\s+` must be non-empty,
and the captured identifier is the maximal `[A-Za-z_][A-Za-z0-9_]*` run —
which makes the trailing `\b` hold automatically.  On success: the captured
name and the total match length. -/
def tryDeclMatch (prevWord : Bool) (cs : List Char) : Option (String × Nat) :=
  if prevWord then none
  else
    match matchKw cs with
    | none => none
    | some (klen, rest) =>
      let ws := rest.takeWhile isSpaceChar
      if ws.length = 0 then none
      else
        match rest.drop ws.length with
        | [] => none
        | d :: ds =>
          if isIdentStart d then
            some (String.mk (d :: ds.takeWhile isIdentChar),
              klen + ws.length + (d :: ds.takeWhile isIdentChar).length)
          else none

/-- `TYPE_RE.finditer`: all matches with their start offsets, scanning left
to right and resuming right after each match (after a match the preceding
character is the identifier's last character, a word character).  The fuel
is the remaining text length; every step consumes at least one character,
so it never runs out. -/
def findDeclsAux : Nat → List Char → Bool → Nat → List (String × Nat)
  | 0, _, _, _ => []
  | _ + 1, [], _, _ => []
  | fuel + 1, c :: cs, prevWord, i =>
    match tryDeclMatch prevWord (c :: cs) with
    | some (name, len) =>
      (name, i) :: findDeclsAux fuel ((c :: cs).drop len) true (i + len)
    | none => findDeclsAux fuel cs (isWordChar c) (i + 1)

def findDecls (text : List Char) : List (String × Nat) :=
  findDeclsAux text.length text false 0

/-- The names captured by the `TYPE_RE` matches, in order of appearance. -/
def declNames (text : List Char) : List String := (findDecls text).map Prod.fst

/-- Distinct elements in order of first appearance: the iteration order of
the insertion-ordered Python dict `names`. -/
def firstOccsAux : List String → List String → List String
  | [], _ => []
  | n :: rest, seen =>
    if n ∈ seen then firstOccsAux rest seen
    else n :: firstOccsAux rest (n :: seen)

def firstOccs (l : List String) : List String := firstOccsAux l []

/-- The duplicate-type-name diagnostics of `check_file`: one message per
name with two or more `TYPE_RE` matches (`len(occ) > 1`), in
first-appearance order. -/
def dupErrors (path : String) (text : List Char) : List String :=
  (firstOccs (declNames text)).filterMap fun n =>
    if 2 ≤ (declNames text).count n then
      some (path ++ ": Duplicate type name detected: " ++ n)
    else none

/-- Python `str.splitlines` restricted to the `\n`, `\r\n` and `\r`
terminators: the lines without their terminators; a trailing terminator
yields no final empty line. -/
def splitLinesAux : List Char → List Char → List (List Char)
  | [], acc => if acc.isEmpty then [] else [acc.reverse]
  | '\n' :: rest, acc => acc.reverse :: splitLinesAux rest []
  | '\r' :: '\n' :: rest, acc => acc.reverse :: splitLinesAux rest []
  | '\r' :: rest, acc => acc.reverse :: splitLinesAux rest []
  | c :: rest, acc => splitLinesAux rest (c :: acc)

def splitLines (text : List Char) : List (List Char) := splitLinesAux text []

/-- The keyword alternation of `TOP_PRIVATE_RE` together with its trailing
`\b`: the text starts with one of the six declaration keywords and the
character right after it, if any, is not a word character. -/
def TOP_DECL_KEYWORDS : List (List Char) :=
  ["struct".data, "class".data, "enum".data, "func".data, "var".data, "let".data]

def topKeywordBoundary (cs : List Char) : Bool :=
  TOP_DECL_KEYWORDS.any fun kw =>
    decide (cs.take kw.length = kw) &&
      (match cs.drop kw.length with
       | [] => true
       | d :: _ => !isWordChar d)

/-- `TOP_PRIVATE_RE.search` on one line: `^\s*private\s+` then a declaration
keyword with its `\b`.  The anchor `^` confines the match to the line
start; the whitespace runs are maximal because `\s` is disjoint from the
letters that must follow. -/
def matchTopPrivate (line : List Char) : Bool :=
  if (line.dropWhile isSpaceChar).take 7 = "private".data then
    if ((line.dropWhile isSpaceChar).drop 7).takeWhile isSpaceChar = [] then false
    else
      topKeywordBoundary
        (((line.dropWhile isSpaceChar).drop 7).dropWhile isSpaceChar)
  else false

/-- The `top_privates` counter of `check_file`. -/
def topPrivateCount (text : List Char) : Nat :=
  ((splitLines text).filter matchTopPrivate).length

/-- The top-level-private diagnostic of `check_file` (threshold `>= 3`). -/
def privErrors (path : String) (text : List Char) : List String :=
  if 3 ≤ topPrivateCount text then
    [path ++ ": Many top-level private declarations (>=3). Possible premature closing brace in a View."]
  else []

/-- The disable-marker test: `'swiftlint:disable all' in text.lower()`. -/
def hasDisableMarker (text : List Char) : Bool :=
  decide ("swiftlint:disable all".data <:+: text.map Char.toLower)

/-- Helper for `baseName`: the characters after the last `/`. -/
def baseNameAux : List Char → List Char → List Char
  | [], acc => acc.reverse
  | '/' :: rest, _ => baseNameAux rest []
  | c :: rest, acc => baseNameAux rest (c :: acc)

/-- Python `Path(p).name`: the final path component. -/
def baseName (p : String) : String := String.mk (baseNameAux p.data [])

/-- `check_file`: the diagnostics appended to the global `errors` list for
one file.  A name not ending in `.swift` returns before the file is read; a
disable marker skips all checks; otherwise the balance diagnostics come
first, then the duplicate-name diagnostics, then the top-level-private
diagnostic. -/
def check_file (path : String) (text : List Char) : List String :=
  if !(".swift".data.isSuffixOf (baseName path).data) then []
  else if hasDisableMarker text then []
  else balanceErrors path text ++ dupErrors path text ++ privErrors path text

/-- A filesystem model: the files as path–content pairs, listed in the
(deterministic but otherwise unspecified) order `rglob` traverses them. -/
structure FS where
  files : List (String × List Char)
deriving DecidableEq

/-- `Path(target).is_file()`. -/
def isFile (fs : FS) (p : String) : Bool :=
  fs.files.any fun f => f.1 == p

/-- `path.read_text(...)`: the stored content of the file. -/
def readFile (fs : FS) (p : String) : List Char :=
  ((fs.files.find? fun f => f.1 == p).map Prod.snd).getD []

/-- `target.rglob('*.swift')`: the files strictly below `target` whose final
component ends in `.swift`, in traversal order. -/
def rglobSwift (fs : FS) (dir : String) : List String :=
  (fs.files.map Prod.fst).filter fun p =>
    (dir ++ "/").data.isPrefixOf p.data && ".swift".data.isSuffixOf (baseName p).data

/-- `walk`: a file argument goes straight to `check_file`; anything else is
treated as a directory and globbed. -/
def walk (fs : FS) (target : String) : List String :=
  if isFile fs target then [target] else rglobSwift fs target

/-- All files `check_file` is invoked on, over all arguments, in order. -/
def processedFiles (fs : FS) (args : List String) : List String :=
  args.flatMap (walk fs)

/-- The global `errors` list at the end of the per-file loop. -/
def runErrors (fs : FS) (args : List String) : List String :=
  (processedFiles fs args).flatMap fun p => check_file p (readFile fs p)

/-- The files actually opened: `read_text` runs only after `check_file`'s
`.swift` name test succeeds. -/
def readPaths (fs : FS) (args : List String) : List String :=
  (processedFiles fs args).filter fun p => ".swift".data.isSuffixOf (baseName p).data

def USAGE_LINE : String := "Usage: validate_swift_structure.py <dir_or_file>"

def COMPLETION_LINE : String := "Structure check completed (warnings may be shown)"

/-- The outcome of one invocation: exit status, stdout lines, files read. -/
structure RunResult where
  exitCode : Nat
  output : List String
  reads : List String
deriving DecidableEq

/-- The `__main__` driver: with no path arguments it prints the usage line
and exits with status 2 before touching the filesystem; otherwise it walks
every argument, checks each resolved file, prints the collected `errors`
prefixed with `STRUCTURE: `, then the fixed completion line, and ends with
status 0 however many diagnostics were found. -/
def run (fs : FS) (args : List String) : RunResult :=
  if args.length = 0 then
    { exitCode := 2, output := [USAGE_LINE], reads := [] }
  else
    { exitCode := 0
      output := (runErrors fs args).map (fun e => "STRUCTURE: " ++ e) ++ [COMPLETION_LINE]
      reads := readPaths fs args }

/-- Observable events of a run, in order: file reads and printed lines. -/
inductive Event where
  | read : String → Event
  | outLine : String → Event
deriving DecidableEq

/-- The event trace of one invocation.  The per-file loop reads each file
and appends its diagnostics to the in-memory `errors` list, printing
nothing; only after the loop does the driver print the collected
diagnostics and the completion line. -/
def runTrace (fs : FS) (args : List String) : List Event :=
  if args.length = 0 then [Event.outLine USAGE_LINE]
  else
    (readPaths fs args).map Event.read ++
      (runErrors fs args).map (fun e => Event.outLine ("STRUCTURE: " ++ e)) ++
      [Event.outLine COMPLETION_LINE]

/-- Two-file filesystem: the first file has a balance diagnostic. -/
def fsTwo : FS := ⟨[("A.swift", ")(".data), ("B.swift", "ok".data)]⟩

/-- One non-`.swift` file whose content is unbalanced. -/
def fsPlain : FS := ⟨[("README.md", "# hi (".data)]⟩

/-- A text used to exercise the duplicate-name diagnostics. -/
def dupExample : List Char :=
  "struct Foo \x7b\x7d\nstruct Foo \x7b\x7d\nstruct Foo \x7b\x7d\nclass Bar \x7b\x7d".data

/-- A text with exactly three lines matching `TOP_PRIVATE_RE`. -/
def privExample3 : List Char :=
  "private var a = 1\nprivate let b = 2\n  private func c() \x7b\x7d\nlet d = 3".data

/-- A text with exactly two lines matching `TOP_PRIVATE_RE`. -/
def privExample2 : List Char :=
  "private var a = 1\nprivate let b = 2\nlet d = 3".data

/-- A character that is a closer (has a pair) is not an opener. -/
theorem pairOf_not_open {c p : Char} (h : pairOf c = some p) : isOpenDelim c = false := by
  unfold pairOf at h
  split at h
  · rename_i hc; subst hc; rfl
  · split at h
    · rename_i hc; subst hc; rfl
    · split at h
      · rename_i hc; subst hc; rfl
      · exact absurd h (by simp)

/-- Scanning a concatenation: scan the first part; if it broke, the second
part is never looked at, otherwise continue with the stack it produced. -/
theorem scanBal_append (xs : List Char) : ∀ (ys : List Char) (st : List Char) (i : Nat),
    scanBal (xs ++ ys) st i =
      match scanBal xs st i with
      | (st2, none) => scanBal ys st2 (i + xs.length)
      | (st2, some j) => (st2, some j) := by
  induction xs with
  | nil => intro ys st i; simp [scanBal]
  | cons c cs ih =>
    intro ys st i
    show scanBal (c :: (cs ++ ys)) st i = _
    rw [scanBal, scanBal]
    by_cases hc : isOpenDelim c
    · simp [hc, ih, Nat.add_comm, Nat.add_assoc, Nat.add_left_comm]
    · rcases hp : pairOf c with _ | p
      · simp [hc, hp, ih, Nat.add_comm, Nat.add_assoc, Nat.add_left_comm]
      · rcases st with _ | ⟨t, st2⟩
        · simp [hc, hp]
        · by_cases ht : t = p
          · simp [hc, hp, ht, ih, Nat.add_comm, Nat.add_assoc, Nat.add_left_comm]
          · simp [hc, hp, ht]

/-- Scanning a balanced text leaves the stack unchanged and finds no mismatch. -/
theorem scanBal_balanced {xs : List Char} (h : Balanced xs) :
    ∀ (st : List Char) (i : Nat), scanBal xs st i = (st, none) := by
  induction h with
  | nil => intro st i; rfl
  | other ho hp _ ih =>
    intro st i
    rw [scanBal]
    simp only [ho, if_false, hp]
    exact ih st (i + 1)
  | wrap ho hp _ _ ihm iht =>
    intro st i
    rename_i o c m t _ _
    rw [scanBal]
    simp only [ho, if_true]
    rw [scanBal_append, ihm]
    show scanBal (c :: t) (o :: st) (i + 1 + m.length) = (st, none)
    rw [scanBal]
    simp [pairOf_not_open hp, hp, iht st (i + 1 + m.length + 1)]

/-- **C1.** A perfectly balanced, correctly nested text produces zero balance
diagnostics: the scan reaches end-of-text with an empty stack and no
mismatch, so `check_file`'s balance pass appends nothing to `errors`. -/
theorem balanced_no_balance_errors (path : String) (text : List Char)
    (h : Balanced text) :
    scanBal text [] 0 = ([], none) ∧ balanceErrors path text = [] := by
  have hs := scanBal_balanced h [] 0
  refine ⟨hs, ?_⟩
  simp [balanceErrors, hs]

/-- Witness for C1: the balanced text `"f(a)\x7bg[b]\x7d"` yields no balance
diagnostics. -/
theorem balanced_no_balance_errors_witness :
    scanBal "f(a)\x7bg[b]\x7d".data [] 0 = ([], none) ∧
      balanceErrors "V.swift" "f(a)\x7bg[b]\x7d".data = [] := by
  refine balanced_no_balance_errors "V.swift" _ ?_
  show Balanced ['f', '(', 'a', ')', '\x7b', 'g', '[', 'b', ']', '\x7d']
  have hb : Balanced ['b'] := .other (by decide) (by decide) .nil
  have hgb : Balanced ['g', '[', 'b', ']'] := by
    refine .other (by decide) (by decide) ?_
    exact .wrap (c := ']') (by decide) (by decide) hb .nil
  have hinner : Balanced ['(', 'a', ')', '\x7b', 'g', '[', 'b', ']', '\x7d'] := by
    have ha : Balanced ['a'] := .other (by decide) (by decide) .nil
    have htail : Balanced ['\x7b', 'g', '[', 'b', ']', '\x7d'] :=
      .wrap (c := '\x7d') (by decide) (by decide) hgb .nil
    exact .wrap (c := ')') (by decide) (by decide) ha htail
  exact .other (by decide) (by decide) hinner

/-- Anatomy of the `break`: when the scan of `xs` from offset `k` stops with
`some j`, the mismatch sits `d` characters into `xs` (`j = k + d`), the
character there is a closer whose matching opener is missing or not on top
of the stack at that moment, and nothing after that character is ever
inspected (any continuation `post` gives the same result). -/
theorem scanBal_mismatch (xs : List Char) : ∀ (st : List Char) (k : Nat)
    (s : List Char) (j : Nat), scanBal xs st k = (s, some j) →
    ∃ d, j = k + d ∧ d < xs.length ∧
      (∃ c p, xs[d]? = some c ∧ pairOf c = some p ∧
        (s = [] ∨ s.head? ≠ some p)) ∧
      ∀ post, scanBal (xs.take (d + 1) ++ post) st k = (s, some j) := by
  induction xs with
  | nil => intro st k s j h; exact absurd h (by simp [scanBal])
  | cons c cs ih =>
    intro st k s j h
    rw [scanBal] at h
    by_cases hc : isOpenDelim c
    · simp only [hc, if_true] at h
      obtain ⟨d, hd, hlen, hcp, hpost⟩ := ih (c :: st) (k + 1) s j h
      refine ⟨d + 1, by omega, by simp only [List.length_cons]; omega, by simpa using hcp, ?_⟩
      intro post
      show scanBal (c :: (cs.take (d + 1) ++ post)) st k = (s, some j)
      rw [scanBal]
      simp only [hc, if_true]
      exact hpost post
    · rcases hp : pairOf c with _ | p
      · simp only [hc, if_false, hp] at h
        obtain ⟨d, hd, hlen, hcp, hpost⟩ := ih st (k + 1) s j h
        refine ⟨d + 1, by omega, by simp only [List.length_cons]; omega, by simpa using hcp, ?_⟩
        intro post
        show scanBal (c :: (cs.take (d + 1) ++ post)) st k = (s, some j)
        rw [scanBal]
        simp only [hc, if_false, hp]
        exact hpost post
      · rcases st with _ | ⟨t, st2⟩
        · simp only [hc, if_false, hp] at h
          have h2 : ([] : List Char) = s ∧ k = j := by simpa using h
          obtain ⟨rfl, rfl⟩ := h2
          refine ⟨0, by omega, by simp, ⟨c, p, by simp, hp, Or.inl rfl⟩, ?_⟩
          intro post
          show scanBal (c :: post) [] k = ([], some k)
          rw [scanBal]
          simp [hc, hp]
        · by_cases ht : t = p
          · simp only [hc, if_false, hp, ht, if_true] at h
            obtain ⟨d, hd, hlen, hcp, hpost⟩ := ih st2 (k + 1) s j h
            refine ⟨d + 1, by omega, by simp only [List.length_cons]; omega,
              by simpa using hcp, ?_⟩
            intro post
            show scanBal (c :: (cs.take (d + 1) ++ post)) (t :: st2) k = (s, some j)
            rw [scanBal]
            simp only [hc, if_false, hp, ht, if_true]
            exact hpost post
          · simp only [hc, if_false, hp, ht, if_false] at h
            have h2 : t :: st2 = s ∧ k = j := by simpa using h
            obtain ⟨rfl, rfl⟩ := h2
            refine ⟨0, by omega, by simp,
              ⟨c, p, by simp, hp, Or.inr ?_⟩, ?_⟩
            · simp only [List.head?_cons, ne_eq, Option.some.injEq]
              exact ht
            · intro post
              show scanBal (c :: post) (t :: st2) k = (t :: st2, some k)
              rw [scanBal]
              simp [hc, hp, ht]

/-- **C3.** When the scan meets the first closer whose matching opener is not
on top of the stack (or the stack is empty), `check_file` records
`"Unbalanced or mismatched bracket around offset <i>"` at that character's
index, checks no further character for balance (any continuation after the
offending closer changes nothing), and then records
`"Unbalanced brackets, open=<chars>"` — the still-open delimiters listed
bottom-to-top — exactly when the stack is non-empty at that point. -/
theorem mismatch_short_circuit (path : String) (text : List Char)
    (s : List Char) (i : Nat) (h : scanBal text [] 0 = (s, some i)) :
    balanceErrors path text =
      (path ++ ": Unbalanced or mismatched bracket around offset " ++ toString i) ::
        (if s = [] then []
         else [path ++ ": Unbalanced brackets, open=" ++ String.mk s.reverse]) ∧
    (∃ c p, text[i]? = some c ∧ pairOf c = some p ∧ (s = [] ∨ s.head? ≠ some p)) ∧
    (∀ post, scanBal (text.take (i + 1) ++ post) [] 0 = (s, some i)) := by
  obtain ⟨d, hd, hlen, hcp, hpost⟩ := scanBal_mismatch text [] 0 s i h
  have hd0 : d = i := by omega
  subst hd0
  refine ⟨?_, hcp, hpost⟩
  simp [balanceErrors, h]

/-- Witness for C3: on `"(\x7b]"` the scan breaks at offset 2 (the `]` whose
matching opener is not on top), and both diagnostics fire. -/
theorem mismatch_short_circuit_witness :
    balanceErrors "V.swift" "(\x7b]".data =
      ("V.swift" ++ ": Unbalanced or mismatched bracket around offset " ++ toString 2) ::
        (if ['\x7b', '('] = ([] : List Char) then []
         else ["V.swift" ++ ": Unbalanced brackets, open=" ++
           String.mk ['\x7b', '('].reverse]) ∧
    (∃ c p, "(\x7b]".data[2]? = some c ∧ pairOf c = some p ∧
      (['\x7b', '('] = ([] : List Char) ∨ ['\x7b', '('].head? ≠ some p)) ∧
    (∀ post, scanBal ("(\x7b]".data.take (2 + 1) ++ post) [] 0 =
      (['\x7b', '('], some 2)) :=
  mismatch_short_circuit "V.swift" "(\x7b]".data ['\x7b', '('] 2 (by decide)

/-- Two strings are equal when their character lists are. -/
theorem string_data_eq {a b : String} (h : a.data = b.data) : a = b := by
  cases a
  cases b
  congr 1

/-- Appending on the left is injective for strings. -/
theorem string_append_right_inj {a b c : String} (h : a ++ b = a ++ c) : b = c := by
  have hd : a.data ++ b.data = a.data ++ c.data := by
    have h2 := congrArg String.data h
    simpa using h2
  exact string_data_eq (List.append_cancel_left hd)

/-- String append is associative. -/
theorem string_append_assoc (a b c : String) : a ++ b ++ c = a ++ (b ++ c) := by
  refine string_data_eq ?_
  simp

/-- Membership in `firstOccsAux`: the element occurs in the remaining list
and was not seen before. -/
theorem mem_firstOccsAux (x : String) :
    ∀ (l seen : List String), x ∈ firstOccsAux l seen ↔ x ∈ l ∧ x ∉ seen := by
  intro l
  induction l with
  | nil => intro seen; simp [firstOccsAux]
  | cons n rest ih =>
    intro seen
    rw [firstOccsAux]
    by_cases hn : n ∈ seen
    · rw [if_pos hn, ih]
      constructor
      · rintro ⟨h1, h2⟩
        exact ⟨List.mem_cons_of_mem _ h1, h2⟩
      · rintro ⟨h1, h2⟩
        rcases List.mem_cons.mp h1 with rfl | h1
        · exact absurd hn h2
        · exact ⟨h1, h2⟩
    · rw [if_neg hn]
      constructor
      · intro hx
        rcases List.mem_cons.mp hx with rfl | hx
        · exact ⟨List.mem_cons_self _ _, hn⟩
        · obtain ⟨h1, h2⟩ := (ih (n :: seen)).mp hx
          exact ⟨List.mem_cons_of_mem _ h1, fun hs => h2 (List.mem_cons_of_mem _ hs)⟩
      · rintro ⟨h1, h2⟩
        by_cases hxn : x = n
        · subst hxn
          exact List.mem_cons_self _ _
        · rcases List.mem_cons.mp h1 with rfl | h1
          · exact absurd rfl hxn
          · refine List.mem_cons_of_mem _ ((ih (n :: seen)).mpr ⟨h1, ?_⟩)
            intro hs
            rcases List.mem_cons.mp hs with rfl | hs
            · exact hxn rfl
            · exact h2 hs

/-- `firstOccsAux` never repeats an element. -/
theorem nodup_firstOccsAux : ∀ (l seen : List String), (firstOccsAux l seen).Nodup := by
  intro l
  induction l with
  | nil => intro seen; simp [firstOccsAux]
  | cons n rest ih =>
    intro seen
    rw [firstOccsAux]
    by_cases hn : n ∈ seen
    · rw [if_pos hn]
      exact ih seen
    · rw [if_neg hn]
      refine List.nodup_cons.mpr ⟨?_, ih (n :: seen)⟩
      intro hmem
      exact ((mem_firstOccsAux n rest (n :: seen)).mp hmem).2 (List.mem_cons_self _ _)

/-- Counting one duplicate-name message in the filter of a list without
repetitions: it appears once when the name is in the list and duplicated in
`names`, otherwise not at all. -/
theorem count_dup_filterMap (path n : String) (names : List String) :
    ∀ L : List String, L.Nodup →
      (L.filterMap fun m =>
          if 2 ≤ names.count m then
            some (path ++ ": Duplicate type name detected: " ++ m)
          else none).count (path ++ ": Duplicate type name detected: " ++ n)
        = if n ∈ L ∧ 2 ≤ names.count n then 1 else 0 := by
  intro L
  induction L with
  | nil => intro _; simp
  | cons m L ih =>
    intro hnd
    obtain ⟨hm, hnd2⟩ := List.nodup_cons.mp hnd
    rw [List.filterMap_cons]
    by_cases hcm : 2 ≤ names.count m
    · rw [if_pos hcm]
      by_cases hmn : m = n
      · subst hmn
        rw [List.count_cons_self, ih hnd2]
        have hno : ¬(m ∈ L ∧ 2 ≤ names.count m) := fun hh => hm hh.1
        rw [if_neg hno, if_pos ⟨List.mem_cons_self _ _, hcm⟩]
      · have hne : (path ++ ": Duplicate type name detected: " ++ n) ≠
            (path ++ ": Duplicate type name detected: " ++ m) := by
          intro he
          exact hmn (string_append_right_inj he).symm
        rw [List.count_cons_of_ne hne, ih hnd2]
        have hiff : n ∈ m :: L ↔ n ∈ L := by
          rw [List.mem_cons]
          constructor
          · rintro (rfl | h1)
            · exact absurd rfl hmn
            · exact h1
          · exact Or.inr
        simp only [hiff]
    · rw [if_neg hcm, ih hnd2]
      by_cases hmn : m = n
      · subst hmn
        have h1 : ¬(m ∈ L ∧ 2 ≤ names.count m) := fun hh => hcm hh.2
        have h2 : ¬(m ∈ m :: L ∧ 2 ≤ names.count m) := fun hh => hcm hh.2
        rw [if_neg h1, if_neg h2]
      · have hiff : n ∈ m :: L ↔ n ∈ L := by
          rw [List.mem_cons]
          constructor
          · rintro (rfl | h1)
            · exact absurd rfl hmn
            · exact h1
          · exact Or.inr
        simp only [hiff]

/-- **C4.** For every text and name, `check_file` records exactly one
`Duplicate type name detected` diagnostic when `TYPE_RE` matches the name
two or more times, and none when it matches at most once — one per
duplicated name, not one per extra occurrence, as the three `Foo`
declarations of `dupExample` illustrate. -/
theorem duplicate_name_one_diagnostic :
    (∀ (path : String) (text : List Char) (n : String),
      (dupErrors path text).count (path ++ ": Duplicate type name detected: " ++ n)
        = if 2 ≤ (declNames text).count n then 1 else 0) ∧
    declNames dupExample = ["Foo", "Foo", "Foo", "Bar"] ∧
    dupErrors "V.swift" dupExample = ["V.swift: Duplicate type name detected: Foo"] := by
  refine ⟨?_, by decide, by decide⟩
  intro path text n
  rw [dupErrors, count_dup_filterMap path n (declNames text) (firstOccs (declNames text))
    (by rw [firstOccs]; exact nodup_firstOccsAux (declNames text) [])]
  by_cases hc : 2 ≤ (declNames text).count n
  · have hmem : n ∈ firstOccs (declNames text) := by
      rw [firstOccs, mem_firstOccsAux]
      refine ⟨?_, by simp⟩
      have hpos : 0 < (declNames text).count n := by omega
      exact List.count_pos_iff.mp hpos
    rw [if_pos ⟨hmem, hc⟩, if_pos hc]
  · rw [if_neg (fun hh => hc hh.2), if_neg hc]

/-- **C5.** The top-level-private diagnostic fires exactly once if and only
if at least 3 lines match `TOP_PRIVATE_RE` (a line whose leading whitespace
is followed by `private`, whitespace, and a declaration keyword); with
exactly 2 matching lines nothing is recorded — the threshold is inclusive
at 3, as the two concrete texts illustrate. -/
theorem top_private_threshold :
    (∀ (path : String) (text : List Char),
      (privErrors path text =
          [path ++ ": Many top-level private declarations (>=3). Possible premature closing brace in a View."]
        ↔ 3 ≤ topPrivateCount text) ∧
      (privErrors path text = [] ↔ topPrivateCount text < 3)) ∧
    topPrivateCount privExample3 = 3 ∧
    privErrors "V.swift" privExample3 =
      ["V.swift: Many top-level private declarations (>=3). Possible premature closing brace in a View."] ∧
    topPrivateCount privExample2 = 2 ∧
    privErrors "V.swift" privExample2 = [] := by
  refine ⟨?_, by decide, by decide, by decide, by decide⟩
  intro path text
  rw [privErrors]
  by_cases h3 : 3 ≤ topPrivateCount text
  · rw [if_pos h3]
    constructor
    · simp [h3]
    · constructor
      · intro he
        exact absurd he (by simp)
      · intro hlt
        omega
  · rw [if_neg h3]
    constructor
    · constructor
      · intro he
        exact absurd he.symm (by simp)
      · intro hge
        exact absurd hge h3
    · constructor
      · intro _
        omega
      · intro _
        rfl

/-- **C2.** On the text `")("` the scan short-circuits at offset 0 with an
empty stack: `check_file` records exactly one diagnostic, it contains
`"mismatched bracket around offset 0"`, and it does not contain `"open="`
(the later `'('` is never pushed). -/
theorem closer_before_opener_single_diag :
    check_file "V.swift" ")(".data =
      ["V.swift: Unbalanced or mismatched bracket around offset 0"] ∧
    "mismatched bracket around offset 0".data <:+:
      "V.swift: Unbalanced or mismatched bracket around offset 0".data ∧
    ¬("open=".data <:+:
      "V.swift: Unbalanced or mismatched bracket around offset 0".data) := by
  refine ⟨by decide, by decide, by decide⟩

/-- **C6.** A file whose lower-cased text contains the disable marker
`swiftlint:disable all` produces no diagnostics of any kind. -/
theorem disable_marker_skips_file (path : String) (text : List Char)
    (h : "swiftlint:disable all".data <:+: text.map Char.toLower) :
    check_file path text = [] := by
  have hB : hasDisableMarker text = true := by
    rw [hasDisableMarker]
    exact decide_eq_true h
  rw [check_file]
  simp [hB]

/-- Witness for C6: a mixed-case marker suppresses every diagnostic even
though the text is unbalanced and has a duplicate type name. -/
theorem disable_marker_skips_file_witness :
    check_file "V.swift"
      "SwiftLint:Disable ALL )( struct A \x7b\x7d struct A \x7b\x7d".data = [] :=
  disable_marker_skips_file "V.swift"
    "SwiftLint:Disable ALL )( struct A \x7b\x7d struct A \x7b\x7d".data (by decide)

/-- **C7.** With zero path arguments the driver signals the usage error
(exit status 2) without reading any file and without printing any
diagnostic or the completion line; with at least one argument the run never
aborts — the exit status is 0 no matter what diagnostics are found. -/
theorem no_args_usage_error :
    (∀ fs : FS, (run fs []).exitCode = 2 ∧ (run fs []).reads = [] ∧
      (run fs []).output = [USAGE_LINE]) ∧
    (∀ (fs : FS) (args : List String), args ≠ [] → (run fs args).exitCode = 0) := by
  constructor
  · intro fs
    exact ⟨rfl, rfl, rfl⟩
  · intro fs args h
    rw [run, if_neg (by simpa using h)]

/-- Witness for C7: a run over one argument exits 0. -/
theorem no_args_usage_error_witness :
    (run fsTwo ["A.swift"]).exitCode = 0 :=
  no_args_usage_error.2 fsTwo ["A.swift"] (by decide)

/-- Splitting the fixed `": ..."` part of a three-piece diagnostic after the
path: used to read every diagnostic as `path ++ ": " ++ message`. -/
theorem split_colon_append (path A B t : String) (hAB : A.data = ": ".data ++ B.data) :
    path ++ A ++ t = path ++ ": " ++ (B ++ t) := by
  refine string_data_eq ?_
  have h1 : (path ++ A ++ t).data = path.data ++ A.data ++ t.data := by
    simp
  have h2 : (path ++ ": " ++ (B ++ t)).data =
      path.data ++ ": ".data ++ (B.data ++ t.data) := by
    simp
  rw [h1, h2, hAB]
  simp [List.append_assoc]

/-- Two-piece variant of `split_colon_append`. -/
theorem split_colon (path A B : String) (hAB : A.data = ": ".data ++ B.data) :
    path ++ A = path ++ ": " ++ B := by
  refine string_data_eq ?_
  have h1 : (path ++ A).data = path.data ++ A.data := by
    simp
  have h2 : (path ++ ": " ++ B).data = path.data ++ ": ".data ++ B.data := by
    simp
  rw [h1, h2, hAB, List.append_assoc]

/-- Every diagnostic `check_file` records is `path ++ ": " ++ message`. -/
theorem check_file_shape (path : String) (text : List Char) :
    ∀ e ∈ check_file path text, ∃ m, e = path ++ ": " ++ m := by
  intro e he
  rw [check_file] at he
  split at he
  · simp at he
  · split at he
    · simp at he
    · rcases List.mem_append.mp he with he1 | hpriv
      · rcases List.mem_append.mp he1 with hbal | hdup
        · rw [balanceErrors] at hbal
          rcases List.mem_append.mp hbal with hm | ho
          · rcases hsc : (scanBal text [] 0).2 with _ | i
            · rw [hsc] at hm
              simp at hm
            · rw [hsc] at hm
              rw [List.mem_singleton] at hm
              refine ⟨"Unbalanced or mismatched bracket around offset " ++ toString i, ?_⟩
              rw [hm]
              exact split_colon_append path _ _ _ (by decide)
          · split at ho
            · simp at ho
            · rw [List.mem_singleton] at ho
              refine ⟨"Unbalanced brackets, open=" ++
                String.mk (scanBal text [] 0).1.reverse, ?_⟩
              rw [ho]
              exact split_colon_append path _ _ _ (by decide)
        · obtain ⟨n, _, hn⟩ := List.mem_filterMap.mp hdup
          split at hn
          · rw [Option.some.injEq] at hn
            refine ⟨"Duplicate type name detected: " ++ n, ?_⟩
            rw [← hn]
            exact split_colon_append path _ _ _ (by decide)
          · simp at hn
      · rw [privErrors] at hpriv
        split at hpriv
        · rw [List.mem_singleton] at hpriv
          refine ⟨"Many top-level private declarations (>=3). Possible premature closing brace in a View.", ?_⟩
          rw [hpriv]
          exact split_colon path _ _ (by decide)
        · simp at hpriv

/-- **C8.** With at least one argument, the output is the diagnostics — each
printed as `STRUCTURE: <path>: <message>` — followed by the fixed completion
line, which appears no matter how many diagnostics were found; the
diagnostics come from the files in traversal order, and within one file the
balance diagnostics come first, then the duplicate-name ones, then the
top-level-private one. -/
theorem report_shape (fs : FS) (args : List String) (h : args ≠ []) :
    (run fs args).output =
      (runErrors fs args).map (fun e => "STRUCTURE: " ++ e) ++ [COMPLETION_LINE] ∧
    runErrors fs args =
      (processedFiles fs args).flatMap (fun p => check_file p (readFile fs p)) ∧
    (∀ e ∈ runErrors fs args, ∃ p m, p ∈ processedFiles fs args ∧ e = p ++ ": " ++ m) ∧
    (∀ (path : String) (text : List Char),
      check_file path text = [] ∨
        check_file path text =
          balanceErrors path text ++ dupErrors path text ++ privErrors path text) := by
  refine ⟨?_, rfl, ?_, ?_⟩
  · rw [run, if_neg (by simpa using h)]
  · intro e he
    rw [runErrors] at he
    obtain ⟨p, hp, hep⟩ := List.mem_flatMap.mp he
    obtain ⟨m, hm⟩ := check_file_shape p (readFile fs p) e hep
    exact ⟨p, m, hp, hm⟩
  · intro path text
    rw [check_file]
    split
    · exact Or.inl rfl
    · split
      · exact Or.inl rfl
      · exact Or.inr rfl

/-- Witness for C8: the concrete two-file run has the stated output shape. -/
theorem report_shape_witness :
    (run fsTwo ["A.swift", "B.swift"]).output =
      (runErrors fsTwo ["A.swift", "B.swift"]).map (fun e => "STRUCTURE: " ++ e) ++
        [COMPLETION_LINE] :=
  (report_shape fsTwo ["A.swift", "B.swift"] (by decide)).1

/-- **C9 is false of the code**: diagnostics are not streamed.  In this
two-file run the first file's diagnostic is printed only after the second
file has been read — the trace reads both files first and prints afterwards,
so "every diagnostic of an earlier file is printed before any later file is
read" fails at this input. -/
theorem diagnostics_not_streamed :
    runTrace fsTwo ["A.swift", "B.swift"] =
      [Event.read "A.swift", Event.read "B.swift",
        Event.outLine "STRUCTURE: A.swift: Unbalanced or mismatched bracket around offset 0",
        Event.outLine COMPLETION_LINE] ∧
    (runTrace fsTwo ["A.swift", "B.swift"]).indexOf (Event.read "B.swift") <
      (runTrace fsTwo ["A.swift", "B.swift"]).indexOf
        (Event.outLine
          "STRUCTURE: A.swift: Unbalanced or mismatched bracket around offset 0") := by
  refine ⟨by decide, by decide⟩

/-- **C9 (amended).** The report is batched, not streaming: after the
argument check the trace is all the file reads, in processing order,
followed by all the printed lines. -/
theorem batched_report (fs : FS) (args : List String) (h : args ≠ []) :
    runTrace fs args =
      (readPaths fs args).map Event.read ++
        ((runErrors fs args).map (fun e => Event.outLine ("STRUCTURE: " ++ e)) ++
          [Event.outLine COMPLETION_LINE]) ∧
    (∀ e ∈ (readPaths fs args).map Event.read, ∃ p, e = Event.read p) ∧
    (∀ e ∈ (runErrors fs args).map (fun e => Event.outLine ("STRUCTURE: " ++ e)) ++
        [Event.outLine COMPLETION_LINE], ∃ s, e = Event.outLine s) := by
  refine ⟨?_, ?_, ?_⟩
  · rw [runTrace, if_neg (by simpa using h), List.append_assoc]
  · intro e he
    obtain ⟨p, _, hp⟩ := List.mem_map.mp he
    exact ⟨p, hp.symm⟩
  · intro e he
    rcases List.mem_append.mp he with he1 | he2
    · obtain ⟨s, _, hs⟩ := List.mem_map.mp he1
      exact ⟨"STRUCTURE: " ++ s, hs.symm⟩
    · rw [List.mem_singleton] at he2
      exact ⟨COMPLETION_LINE, he2⟩

/-- Witness for the amended C9: the two-file trace is reads then prints. -/
theorem batched_report_witness :
    runTrace fsTwo ["A.swift", "B.swift"] =
      (readPaths fsTwo ["A.swift", "B.swift"]).map Event.read ++
        ((runErrors fsTwo ["A.swift", "B.swift"]).map
            (fun e => Event.outLine ("STRUCTURE: " ++ e)) ++
          [Event.outLine COMPLETION_LINE]) :=
  (batched_report fsTwo ["A.swift", "B.swift"] (by decide)).1

/-- **C10.** A path argument that is an existing file whose name does not
end in `.swift` is skipped silently: `check_file` returns before reading it,
it contributes no diagnostics, the file is never read, and the run still
prints the completion line and exits 0. -/
theorem non_swift_file_skipped (fs : FS) (args : List String) (p : String)
    (hmem : p ∈ args) (hfile : isFile fs p = true)
    (hname : ".swift".data.isSuffixOf (baseName p).data = false) :
    walk fs p = [p] ∧
    check_file p (readFile fs p) = [] ∧
    p ∉ (run fs args).reads ∧
    COMPLETION_LINE ∈ (run fs args).output ∧
    (run fs args).exitCode = 0 := by
  have hargs : args ≠ [] := by
    rintro rfl
    simp at hmem
  refine ⟨by rw [walk, if_pos hfile], ?_, ?_, ?_, ?_⟩
  · rw [check_file, if_pos (by rw [hname]; rfl)]
  · rw [run, if_neg (by simpa using hargs)]
    show p ∉ readPaths fs args
    rw [readPaths]
    intro hin
    have h2 := (List.mem_filter.mp hin).2
    rw [hname] at h2
    exact absurd h2 (by decide)
  · rw [run, if_neg (by simpa using hargs)]
    exact List.mem_append_right _ (List.mem_singleton_self _)
  · rw [run, if_neg (by simpa using hargs)]

/-- Witness for C10: `README.md`, an existing unbalanced non-`.swift` file
passed directly, yields no diagnostics and is never read. -/
theorem non_swift_file_skipped_witness :
    walk fsPlain "README.md" = ["README.md"] ∧
    check_file "README.md" (readFile fsPlain "README.md") = [] ∧
    "README.md" ∉ (run fsPlain ["README.md"]).reads ∧
    COMPLETION_LINE ∈ (run fsPlain ["README.md"]).output ∧
    (run fsPlain ["README.md"]).exitCode = 0 :=
  non_swift_file_skipped fsPlain ["README.md"] "README.md"
    (by decide) (by decide) (by decide)

end SwiftStructure
